import Mathlib

/-!
Verification of the tcp-llm session/protocol engine.

The server (`src/index.ts`) keeps, per connected client, a conversation
history (a list of role-tagged messages) and a selected model name.  We
embed that per-session state and the operations on it as pure Lean
functions; the external OpenAI completion call is modelled by an explicit
`Except String (Option String)` outcome parameter (error message, or the
optional `choices[0]?.message?.content`).  The C client's envelope decoder
(`extract_xml_content` / `trim_string`) is embedded over `List Char`.
-/

namespace TcpLlm

/-- A chat message: `role` is one of "system" / "user" / "assistant". -/
structure Message where
  role : String
  content : String
deriving DecidableEq, Repr

/-- `MAX_HISTORY = 10`, the retention bound on the conversation history. -/
def MAX_HISTORY : Nat := 10

/-- The fixed allow-list of model identifiers (`AVAILABLE_MODELS`). -/
def AVAILABLE_MODELS : List String :=
  ["gpt-4.1-2025-04-14", "gpt-4.1-nano-2025-04-14", "o4-mini-2025-04-16"]

/-- The default model (`DEFAULT_MODEL`). -/
def DEFAULT_MODEL : String := "gpt-4.1-nano-2025-04-14"

/-- The fixed system message installed at index 0 of every history. -/
def systemMessage : Message :=
  { role := "system", content := "あなたは役立つアシスタントです。" }

/-- Per-session view of the two server maps `conversationHistories` and
`clientModels`: `none` models an absent map entry for this client. -/
structure SessionState where
  history : Option (List Message)
  model : Option String
deriving DecidableEq, Repr

/-- `initializeConversationHistory`: sets the history to the single system
message and the model to the default. -/
def initializeConversationHistory (_s : SessionState) : SessionState :=
  { history := some [systemMessage], model := some DEFAULT_MODEL }

/-- `getClientModel`: `clientModels.get(clientId) || DEFAULT_MODEL`
(JS `||` also replaces an empty string by the default). -/
def getClientModel (s : SessionState) : String :=
  match s.model with
  | some m => if m = "" then DEFAULT_MODEL else m
  | none => DEFAULT_MODEL

/-- `setClientModel`: succeeds (and stores the model) only when the name is
in `AVAILABLE_MODELS`. -/
def setClientModel (s : SessionState) (model : String) : SessionState × Bool :=
  if AVAILABLE_MODELS.contains model then ({ s with model := some model }, true)
  else (s, false)

/-- `getConversationHistory`: initializes the session when the history
entry is absent, then returns the stored history. -/
def getConversationHistory (s : SessionState) : SessionState × List Message :=
  match s.history with
  | some h => (s, h)
  | none => (initializeConversationHistory s, [systemMessage])

/-- The push-then-splice block of `updateConversationHistory`: append one
message, then, when the length exceeds `MAX_HISTORY + 1`,
`splice(1, len - (MAX_HISTORY + 1))` removes the excess starting at index 1
(keeping index 0). -/
def pushEvict (h : List Message) (m : Message) : List Message :=
  let h2 := h ++ [m]
  if h2.length > MAX_HISTORY + 1 then
    h2.take 1 ++ h2.drop (1 + (h2.length - (MAX_HISTORY + 1)))
  else h2

/-- `updateConversationHistory`: fetch (initializing when absent), append
the new message with eviction, store back. -/
def updateConversationHistory (s : SessionState) (role content : String) :
    SessionState :=
  let p := getConversationHistory s
  { p.1 with history := some (pushEvict p.2 { role := role, content := content }) }

/-- `clearConversationHistory`: deletes the history map entry only. -/
def clearConversationHistory (s : SessionState) : SessionState :=
  { s with history := none }

/-- The response record `{model, content}` returned by `processMessage`. -/
structure ResponseData where
  model : String
  content : String
deriving DecidableEq, Repr

/-- Outcome of the external OpenAI call: an exception message, or the
optional content `completion.choices[0]?.message?.content`. -/
abbrev ProviderOutcome := Except String (Option String)

/-- `completion.choices[0]?.message?.content || "レスポンスがありませんでした。"`. -/
def responseContentOf (c : Option String) : String :=
  match c with
  | some t => if t = "" then "レスポンスがありませんでした。" else t
  | none => "レスポンスがありませんでした。"

/-- `processMessage`: appends the user turn, reads the current model, and
on provider success appends the assistant turn; on provider failure it
returns an error-text response without appending anything further. -/
def processMessage (s : SessionState) (message : String)
    (provider : ProviderOutcome) : SessionState × ResponseData :=
  let s1 := updateConversationHistory s "user" message
  let model := getClientModel s1
  match provider with
  | Except.ok c =>
    let rc := responseContentOf c
    let s2 := updateConversationHistory s1 "assistant" rc
    (s2, { model := model, content := rc })
  | Except.error e =>
    (s1, { model := getClientModel s1,
           content := "エラーが発生しました: " ++ e })

/-! ### String primitives mirroring the JavaScript ones -/

/-- Whitespace recognized by JS `trim` (ASCII part). -/
def jsWhitespace (c : Char) : Bool :=
  c = ' ' || c = '\t' || c = '\n' || c = '\r' || c = Char.ofNat 11 || c = Char.ofNat 12

/-- Drop leading and trailing whitespace from a character list. -/
def trimList (l : List Char) : List Char :=
  ((l.dropWhile jsWhitespace).reverse.dropWhile jsWhitespace).reverse

/-- JS `String.prototype.trim`. -/
def jsTrim (s : String) : String := ⟨trimList s.data⟩

/-- JS `String.prototype.toLowerCase` restricted to ASCII letters. -/
def lowerChar (c : Char) : Char :=
  if 'A' ≤ c && c ≤ 'Z' then Char.ofNat (c.toNat + 32) else c

/-- JS `toLowerCase` over a string. -/
def jsToLower (s : String) : String := ⟨s.data.map lowerChar⟩

/-- JS `String.prototype.startsWith`. -/
def jsStartsWith (s p : String) : Bool := p.data.isPrefixOf s.data

/-- JS `String.prototype.substring(n)` (drop the first `n` characters). -/
def jsSubstringFrom (s : String) (n : Nat) : String := ⟨s.data.drop n⟩

/-- JS `str.split("\n")` over a character list. -/
def splitNl : List Char → List (List Char)
  | [] => [[]]
  | c :: t =>
    match splitNl t with
    | [] => [[]]
    | h :: r => if c = '\n' then [] :: h :: r else (c :: h) :: r

/-- JS `str.split("\n")`. -/
def jsSplitNl (s : String) : List String := (splitNl s.data).map (fun l => (⟨l⟩ : String))

/-! ### Framer (the `socket.on("data")` buffering, lines 177-187) -/

/-- One `data` event: append the chunk to the buffer; when the chunk itself
contains a newline, split the whole buffer, keep the popped last piece
(`|| ""`) as the new buffer and hand the rest on as complete messages.
Returns (new buffer, emitted lines). -/
def feed (buffer chunk : String) : String × List String :=
  let b := buffer ++ chunk
  if chunk.data.contains '\n' then
    let messages := jsSplitNl b
    (messages.getLastD "", messages.dropLast)
  else (b, [])

/-- Reference framing step, following the specification text: append the
chunk to the buffer; if the chunk contains the delimiter, split the entire
accumulated buffer on the delimiter, emit every piece but the last in
order, and retain the last piece (possibly empty) as the new buffer;
otherwise emit nothing and only accumulate. -/
def refFeed (buffer chunk : String) : String × List String :=
  let acc := buffer ++ chunk
  if chunk.data.contains '\n' then
    let pieces := jsSplitNl acc
    (pieces.getLastD "", pieces.dropLast)
  else (acc, [])

/-! ### Command classification and dispatch (lines 188-270) -/

/-- The derived command of one completed line. -/
inductive Command where
  | Reset : Command
  | ListModels : Command
  | SetModel (name : String) : Command
  | Chat (text : String) : Command
deriving DecidableEq, Repr

/-- Classification of one completed line, distilled from the dispatch
chain: a line empty after trimming is skipped (`if (message.trim())`);
otherwise the trimmed, lower-cased line is compared with `/clear`,
`/models`, and the prefix `/model ` (the set-model argument is
`trimmedMessage.substring(7).trim()`), and anything else is a chat message
carrying the original line. -/
def classify (line : String) : Option Command :=
  if jsTrim line = "" then none
  else
    let trimmedMessage := jsToLower (jsTrim line)
    if trimmedMessage = "/clear" then some Command.Reset
    else if trimmedMessage = "/models" then some Command.ListModels
    else if jsStartsWith trimmedMessage "/model " then
      some (Command.SetModel (jsTrim (jsSubstringFrom trimmedMessage 7)))
    else some (Command.Chat line)

/-- Classification as the specification words its four ordered rules: the
trimmed, case-insensitively compared line equal to `/clear` gives `Reset`,
equal to `/models` gives `ListModels`, starting with the prefix `/model `
gives `SetModel` with the trimmed remainder as name; anything else gives
`Chat` carrying the original line, except that a line empty after trimming
is skipped (not dispatched). -/
def classifySpec (line : String) : Option Command :=
  let compared := jsToLower (jsTrim line)
  if compared = "/clear" then some Command.Reset
  else if compared = "/models" then some Command.ListModels
  else if jsStartsWith compared "/model " then
    some (Command.SetModel (jsTrim (jsSubstringFrom compared 7)))
  else if jsTrim line = "" then none
  else some (Command.Chat line)

/-- One response envelope written back to the socket (the payload handed to
the XML builder). -/
inductive Envelope where
  | clearResp (message : String) : Envelope
  | modelsResp (current_model : String) (available_models : List String)
      (message : String) : Envelope
  | modelChange (success : Bool) (model : String) (message : String) : Envelope
  | chatResp (model : String) (content : String) : Envelope
deriving DecidableEq, Repr

/-- Text of the `/clear` acknowledgement. -/
def clearMessage : String := "会話履歴をクリアしました。"

/-- Text of the `/models` hint line. -/
def modelsMessage : String := "モデルを変更するには '/model モデル名' と入力してください。"

/-- `getAvailableModels`: the allow-list joined with ", ". -/
def getAvailableModels : String := String.intercalate ", " AVAILABLE_MODELS

/-- Outcome text of a `/model` command. -/
def modelChangeMessage (success : Bool) (name : String) : String :=
  if success then "モデルを '" ++ name ++ "' に変更しました。"
  else "エラー: '" ++ name ++ "' は利用できないモデルです。利用可能なモデル: " ++
    getAvailableModels

/-- The `/clear` handler body: delete the history entry, then re-initialize
the session. -/
def resetSession (s : SessionState) : SessionState :=
  initializeConversationHistory (clearConversationHistory s)

/-- Dispatch of one completed line (lines 188-270): classify, then run the
matching handler; the provider outcome feeds the chat branch. Returns the
session state afterwards and the envelope written, if any. -/
def handleMessage (s : SessionState) (message : String)
    (provider : ProviderOutcome) : SessionState × Option Envelope :=
  match classify message with
  | none => (s, none)
  | some Command.Reset =>
    (resetSession s, some (Envelope.clearResp clearMessage))
  | some Command.ListModels =>
    (s, some (Envelope.modelsResp (getClientModel s) AVAILABLE_MODELS modelsMessage))
  | some (Command.SetModel name) =>
    let r := setClientModel s name
    (r.1, some (Envelope.modelChange r.2 name (modelChangeMessage r.2 name)))
  | some (Command.Chat text) =>
    let r := processMessage s text provider
    (r.1, some (Envelope.chatResp r.2.model r.2.content))

/-! ### Socket lifecycle (lines 169-285) -/

/-- Connection establishment initializes the session (line 174). -/
def onConnect (s : SessionState) : SessionState := initializeConversationHistory s

/-- The `end` handler deletes the conversation-history entry only. -/
def onEnd (s : SessionState) : SessionState := clearConversationHistory s

/-- The `error` handler only logs; the session state is untouched. -/
def onError (s : SessionState) : SessionState := s

/-- State of a freshly connected session. -/
def freshSession : SessionState := onConnect { history := none, model := none }

end TcpLlm

namespace CClient

/-- Whitespace recognized by the C client's `trim_string`. -/
def isSpaceC (c : Char) : Bool := c = ' ' || c = '\t' || c = '\n' || c = '\r'

/-- `trim_string`: remove leading and trailing whitespace. -/
def trim_string (s : List Char) : List Char :=
  ((s.dropWhile isSpaceC).reverse.dropWhile isSpaceC).reverse

/-- `strstr`: index of the first occurrence of `needle` in the haystack
(`some 0` for an empty needle), `none` when absent. -/
def firstOcc (needle : List Char) : List Char → Option Nat
  | [] => if needle.isEmpty then some 0 else none
  | c :: t =>
    if needle.isPrefixOf (c :: t) then some 0
    else (firstOcc needle t).map (· + 1)

/-- `extract_xml_content`: find the first `<tag>`, then the first `</tag>`
after it; return the text between them, trimmed, or `none` when either tag
is missing. -/
def extract_xml_content (xml tag : List Char) : Option (List Char) :=
  let startTag := ('<' :: tag) ++ ['>']
  let endTag := ('<' :: '/' :: tag) ++ ['>']
  match firstOcc startTag xml with
  | none => none
  | some i =>
    let rest := xml.drop (i + startTag.length)
    match firstOcc endTag rest with
    | none => none
    | some j => some (trim_string (rest.take j))

/-- First index at which `needle` occurs, phrased independently as a search
over all candidate positions in ascending order. -/
def firstIdxSpec (needle hay : List Char) : Option Nat :=
  (List.range (hay.length + 1)).find? (fun i => needle.isPrefixOf (hay.drop i))

/-- Decoder contract as the specification words it: the substring between
the first occurrence of the opening tag and the first subsequent
occurrence of the closing tag, trimmed of surrounding whitespace; absent
when either tag is missing. -/
def extractSpec (xml tag : List Char) : Option (List Char) :=
  let openTag := ('<' :: tag) ++ ['>']
  let closeTag := ('<' :: '/' :: tag) ++ ['>']
  match firstIdxSpec openTag xml with
  | none => none
  | some i =>
    let afterOpen := xml.drop (i + openTag.length)
    match firstIdxSpec closeTag afterOpen with
    | none => none
    | some j => some (trim_string (afterOpen.take j))

end CClient

open TcpLlm CClient

/-! ### Invariant of the conversation history -/

/-- The invariant claimed for a stored history: the fixed system message
sits at index 0 and the length stays within `MAX_HISTORY + 1`. -/
def HistInv (h : List Message) : Prop :=
  h.head?.map Message.role = some "system" ∧ h.length ≤ MAX_HISTORY + 1

instance (h : List Message) : Decidable (HistInv h) := by
  unfold HistInv; infer_instance

/-- Session-level invariant: whenever the history entry exists, it
satisfies `HistInv`. -/
def SessionInv (s : SessionState) : Prop :=
  ∀ h, s.history = some h → HistInv h

instance (s : SessionState) : Decidable (SessionInv s) :=
  match hs : s.history with
  | none => Decidable.isTrue (fun h hh => by rw [hs] at hh; cases hh)
  | some h0 =>
    decidable_of_iff (HistInv h0)
      ⟨fun hi h hh => by
          rw [hs] at hh
          exact (Option.some.inj hh) ▸ hi,
        fun f => f h0 hs⟩

/-! ### Helper lemmas about `pushEvict` -/

lemma pushEvict_length (h : List Message) (m : Message) :
    (pushEvict h m).length ≤ MAX_HISTORY + 1 := by
  simp only [pushEvict]
  split
  · simp only [List.length_append, List.length_take, List.length_drop,
      List.length_cons, List.length_nil, MAX_HISTORY] at *
    omega
  · rename_i hle
    simp only [List.length_append, List.length_cons, List.length_nil, MAX_HISTORY,
      not_lt] at *
    omega

lemma pushEvict_head (h : List Message) (m : Message) (hne : h ≠ []) :
    (pushEvict h m).head? = h.head? := by
  obtain ⟨a, t, rfl⟩ := List.exists_cons_of_ne_nil hne
  simp only [pushEvict]
  split
  · simp [List.cons_append]
  · simp [List.cons_append]

lemma pushEvict_getLast (h : List Message) (m : Message) :
    (pushEvict h m).getLast? = some m := by
  simp only [pushEvict]
  split
  · rename_i hgt
    have hlen : 1 + ((h ++ [m]).length - (MAX_HISTORY + 1)) ≤ h.length := by
      simp only [List.length_append, List.length_cons, List.length_nil,
        MAX_HISTORY] at *
      omega
    rw [List.drop_append_of_le_length hlen, ← List.append_assoc]
    exact List.getLast?_concat _
  · exact List.getLast?_concat _

lemma update_history_eq (s : SessionState) (role content : String) :
    (updateConversationHistory s role content).history =
      some (pushEvict (getConversationHistory s).2
        { role := role, content := content }) := rfl

lemma getHistory_inv (s : SessionState) (hs : SessionInv s) :
    (getConversationHistory s).2.head?.map Message.role = some "system" ∧
    (getConversationHistory s).2.length ≤ MAX_HISTORY + 1 := by
  cases hh : s.history with
  | some h0 =>
    simp only [getConversationHistory, hh]
    exact hs h0 hh
  | none =>
    simp only [getConversationHistory, hh]
    exact ⟨rfl, by decide⟩

/-! ### Claim theorems -/

/-- C1: for every session, after initialization, after every
`updateConversationHistory` append, and after reset, the history (when it
exists) has the fixed system message at index 0 and length at most
`MAX_HISTORY + 1`. -/
theorem session_history_invariant :
    ∀ (s : SessionState) (role content : String),
      SessionInv (initializeConversationHistory s) ∧
      SessionInv (resetSession s) ∧
      (SessionInv s → SessionInv (updateConversationHistory s role content)) := by
  intro s role content
  refine ⟨?_, ?_, ?_⟩
  · intro h hh
    have he : h = [systemMessage] :=
      (Option.some.inj hh).symm
    rw [he]
    decide
  · intro h hh
    have he : h = [systemMessage] :=
      (Option.some.inj hh).symm
    rw [he]
    decide
  · intro hinv h hh
    have he : h = pushEvict (getConversationHistory s).2
        { role := role, content := content } :=
      (Option.some.inj hh).symm
    obtain ⟨hhead, _⟩ := getHistory_inv s hinv
    have hne : (getConversationHistory s).2 ≠ [] := by
      intro h0
      rw [h0] at hhead
      simp at hhead
    rw [he]
    exact ⟨by rw [pushEvict_head _ _ hne]; exact hhead, pushEvict_length _ _⟩

/-- Witness for C1 at the fresh session. -/
theorem session_history_invariant_witness :
    SessionInv freshSession ∧
      SessionInv (updateConversationHistory freshSession "user" "hi") :=
  ⟨by decide, (session_history_invariant freshSession "user" "hi").2.2 (by decide)⟩

/-- C2 counterexample: after a failed provider call on a fresh session, the
history is `[system, user]` — the erroring content has NOT been appended as
an assistant turn, so the claim's append-on-failure part is false here. -/
theorem provider_failure_history_counterexample :
    (processMessage freshSession "hi" (Except.error "boom")).1.history =
      some [systemMessage, { role := "user", content := "hi" }] ∧
    ((processMessage freshSession "hi" (Except.error "boom")).1.history.getD
        []).getLast? = some { role := "user", content := "hi" } := by
  constructor
  · rfl
  · rfl

/-- C2 amended: when the provider call fails, `processMessage` returns a
response whose content is the descriptive error string and whose model is
the session's currently selected model, and the session state is exactly
the one after appending the user turn — the error content is not appended,
so the history ends with the user message. -/
theorem provider_failure_amended :
    ∀ (s : SessionState) (m e : String),
      (processMessage s m (Except.error e)).1 =
        updateConversationHistory s "user" m ∧
      (processMessage s m (Except.error e)).2 =
        { model := getClientModel (updateConversationHistory s "user" m),
          content := "エラーが発生しました: " ++ e } ∧
      ((processMessage s m (Except.error e)).1.history.getD []).getLast? =
        some { role := "user", content := m } := by
  intro s m e
  refine ⟨rfl, rfl, ?_⟩
  show ((updateConversationHistory s "user" m).history.getD []).getLast? = _
  rw [update_history_eq]
  simp only [Option.getD_some]
  exact pushEvict_getLast _ _

/-- C3: the framing step equals the reference definition (append chunk,
emit split pieces only when the chunk itself contains the delimiter),
together with the two documented chunk sequences. -/
theorem framer_feed_matches_reference :
    (∀ buffer chunk, feed buffer chunk = refFeed buffer chunk) ∧
    feed "" "a\n" = ("", ["a"]) ∧ feed "" "b" = ("b", []) ∧
    feed "" "he" = ("he", []) ∧ feed "he" "llo\n" = ("", ["hello"]) :=
  ⟨fun _ _ => rfl, by decide, by decide, by decide, by decide⟩

/-- C4: `setClientModel` succeeds exactly when the name is in the catalog;
on success only the selected model changes, on failure the state is
untouched. -/
theorem setModel_in_catalog_iff :
    ∀ (s : SessionState) (name : String),
      ((setClientModel s name).2 = true ↔ name ∈ AVAILABLE_MODELS) ∧
      ((setClientModel s name).2 = true →
        (setClientModel s name).1 = { s with model := some name }) ∧
      ((setClientModel s name).2 = false → (setClientModel s name).1 = s) := by
  intro s name
  by_cases hc : AVAILABLE_MODELS.contains name
  · have h1 : setClientModel s name = ({ s with model := some name }, true) := by
      unfold setClientModel; rw [if_pos hc]
    rw [h1]
    refine ⟨⟨fun _ => List.mem_of_elem_eq_true hc, fun _ => rfl⟩,
      fun _ => rfl, fun hf => ?_⟩
    simp at hf
  · have h1 : setClientModel s name = (s, false) := by
      unfold setClientModel; rw [if_neg hc]
    rw [h1]
    refine ⟨⟨fun hf => ?_, fun hm => absurd (List.elem_eq_true_of_mem hm) hc⟩,
      fun hf => ?_, fun _ => rfl⟩
    · simp at hf
    · simp at hf

/-- Witness for C4: selecting a catalog model on the fresh session. -/
theorem setModel_in_catalog_iff_witness :
    (setClientModel freshSession "gpt-4.1-2025-04-14").1 =
      { freshSession with model := some "gpt-4.1-2025-04-14" } :=
  (setModel_in_catalog_iff freshSession "gpt-4.1-2025-04-14").2.1 (by decide)

/-- C5 counterexample: on the `end` event the selected-model entry is kept,
and on the `error` event neither the history entry nor the model entry is
released, so the claim fails at the fresh session. -/
theorem session_teardown_counterexample :
    (onEnd freshSession).model = some DEFAULT_MODEL ∧
    (onError freshSession).history = some [systemMessage] ∧
    (onError freshSession).model = some DEFAULT_MODEL := by
  refine ⟨rfl, rfl, rfl⟩

/-- C5 amended: the `end` handler releases exactly the conversation-history
entry (the model entry stays), and the `error` handler releases nothing —
it only logs. -/
theorem session_teardown_amended :
    ∀ s : SessionState, onEnd s = { s with history := none } ∧ onError s = s :=
  fun _ => ⟨rfl, rfl⟩

/-- C6 counterexample: for the line `/model GPT-4.1-2025-04-14` the
extracted argument is the lower-cased `gpt-4.1-2025-04-14` — that
lower-cased name is what the catalog lookup receives (the verbatim
upper-cased lookup fails) and what the `model_change` envelope echoes, so
the argument's casing is not preserved. -/
theorem model_argument_casing_counterexample :
    classify "/model GPT-4.1-2025-04-14" =
      some (Command.SetModel "gpt-4.1-2025-04-14") ∧
    handleMessage freshSession "/model GPT-4.1-2025-04-14" (Except.ok none) =
      ({ freshSession with model := some "gpt-4.1-2025-04-14" },
        some (Envelope.modelChange true "gpt-4.1-2025-04-14"
          (modelChangeMessage true "gpt-4.1-2025-04-14"))) ∧
    (setClientModel freshSession "GPT-4.1-2025-04-14").2 = false := by
  refine ⟨by decide, by decide, by decide⟩

/-- C6 amended: on a set-model line the argument is taken from the trimmed
AND lower-cased line — lower-casing covers the whole line including the
argument, so the catalog lookup and the echoed `model` field both receive
the lower-cased remainder, not the casing as typed. -/
theorem model_argument_lowercased :
    ∀ (s : SessionState) (line : String) (p : ProviderOutcome),
      jsStartsWith (jsToLower (jsTrim line)) "/model " = true →
      classify line = some (Command.SetModel
        (jsTrim (jsSubstringFrom (jsToLower (jsTrim line)) 7))) ∧
      handleMessage s line p =
        ((setClientModel s
            (jsTrim (jsSubstringFrom (jsToLower (jsTrim line)) 7))).1,
          some (Envelope.modelChange
            (setClientModel s
              (jsTrim (jsSubstringFrom (jsToLower (jsTrim line)) 7))).2
            (jsTrim (jsSubstringFrom (jsToLower (jsTrim line)) 7))
            (modelChangeMessage
              (setClientModel s
                (jsTrim (jsSubstringFrom (jsToLower (jsTrim line)) 7))).2
              (jsTrim (jsSubstringFrom (jsToLower (jsTrim line)) 7))))) := by
  intro s line p h
  have h1 : ¬ jsTrim line = "" := by
    intro h0
    rw [h0] at h
    exact absurd h (by decide)
  have h2 : ¬ jsToLower (jsTrim line) = "/clear" := by
    intro h0
    rw [h0] at h
    exact absurd h (by decide)
  have h3 : ¬ jsToLower (jsTrim line) = "/models" := by
    intro h0
    rw [h0] at h
    exact absurd h (by decide)
  have hcl : classify line = some (Command.SetModel
      (jsTrim (jsSubstringFrom (jsToLower (jsTrim line)) 7))) := by
    simp only [classify, if_neg h1, if_neg h2, if_neg h3, if_pos h]
  exact ⟨hcl, by simp only [handleMessage, hcl]⟩

/-- Witness for C6 amended, at the line `/model ABC`. -/
theorem model_argument_lowercased_witness :
    classify "/model ABC" = some (Command.SetModel
      (jsTrim (jsSubstringFrom (jsToLower (jsTrim "/model ABC")) 7))) ∧
    handleMessage freshSession "/model ABC" (Except.ok none) =
      ((setClientModel freshSession
          (jsTrim (jsSubstringFrom (jsToLower (jsTrim "/model ABC")) 7))).1,
        some (Envelope.modelChange
          (setClientModel freshSession
            (jsTrim (jsSubstringFrom (jsToLower (jsTrim "/model ABC")) 7))).2
          (jsTrim (jsSubstringFrom (jsToLower (jsTrim "/model ABC")) 7))
          (modelChangeMessage
            (setClientModel freshSession
              (jsTrim (jsSubstringFrom (jsToLower (jsTrim "/model ABC")) 7))).2
            (jsTrim (jsSubstringFrom (jsToLower (jsTrim "/model ABC")) 7))))) :=
  model_argument_lowercased freshSession "/model ABC" (Except.ok none) (by decide)

/-- C7: issuing `/clear` twice yields exactly the state of issuing it once —
the single system message as history and the default model. -/
theorem reset_idempotent :
    ∀ (s : SessionState) (p q : ProviderOutcome),
      (handleMessage (handleMessage s "/clear" p).1 "/clear" q).1 =
        (handleMessage s "/clear" p).1 ∧
      (handleMessage s "/clear" p).1 =
        { history := some [systemMessage], model := some DEFAULT_MODEL } := by
  intro s p q
  have hc : classify "/clear" = some Command.Reset := by decide
  constructor
  · simp only [handleMessage, hc]
    rfl
  · simp only [handleMessage, hc]
    rfl

/-- C8: the classification of a completed line equals the four ordered
rules of the specification (with the empty-after-trim skip). -/
theorem classify_matches_spec : ∀ line, classify line = classifySpec line := by
  intro line
  by_cases h0 : jsTrim line = ""
  · have hcomp : jsToLower (jsTrim line) = "" := by rw [h0]; rfl
    have hA : ¬ jsToLower (jsTrim line) = "/clear" := by rw [hcomp]; decide
    have hB : ¬ jsToLower (jsTrim line) = "/models" := by rw [hcomp]; decide
    have hC : ¬ jsStartsWith (jsToLower (jsTrim line)) "/model " = true := by
      rw [hcomp]; decide
    simp only [classify, classifySpec, if_pos h0, if_neg hA, if_neg hB, if_neg hC]
  · simp only [classify, classifySpec, if_neg h0]

/-! ### Decoder lemmas -/

lemma isPrefixOf_nil_eq (needle : List Char) :
    needle.isPrefixOf ([] : List Char) = needle.isEmpty := by
  cases needle <;> simp [List.isPrefixOf, List.isEmpty]

lemma find?_cons_eq {α : Type} (p : α → Bool) (a : α) (l : List α) :
    List.find? p (a :: l) = if p a then some a else List.find? p l := by
  cases h : p a <;> simp [List.find?_cons, h]

lemma firstOcc_eq_firstIdxSpec (needle hay : List Char) :
    firstOcc needle hay = firstIdxSpec needle hay := by
  induction hay with
  | nil =>
    rw [firstIdxSpec]
    have hr : List.range (List.length ([] : List Char) + 1) = [0] := by decide
    rw [hr, find?_cons_eq]
    simp only [List.drop_nil, isPrefixOf_nil_eq]
    cases hn : needle.isEmpty <;> simp [firstOcc, hn]
  | cons c t ih =>
    rw [firstIdxSpec, List.length_cons, List.range_succ_eq_map, find?_cons_eq]
    cases hp : needle.isPrefixOf (c :: t) with
    | true =>
      have h0 : needle.isPrefixOf (List.drop 0 (c :: t)) = true := by
        simpa using hp
      simp [firstOcc, hp, h0]
    | false =>
      have h0 : needle.isPrefixOf (List.drop 0 (c :: t)) = false := by
        simpa using hp
      simp only [firstOcc, hp, h0, if_false, Bool.false_eq_true, ite_false]
      rw [List.find?_map]
      have hfs : ((fun i => needle.isPrefixOf (List.drop i (c :: t))) ∘ Nat.succ) =
          (fun i => needle.isPrefixOf (List.drop i t)) := by
        funext i; rfl
      rw [hfs, ih, firstIdxSpec]

/-- C9: the C client's `extract_xml_content` matches the decoder contract —
substring between the first opening tag and the first subsequent closing
tag, trimmed; absent when either tag is missing; only the first of several
same-named tags is returned (concrete duplicated-tag and truncated-markup
cases included). -/
theorem extract_xml_content_matches_spec :
    (∀ xml tag, extract_xml_content xml tag = extractSpec xml tag) ∧
    extract_xml_content "<a> x </a><a>y</a>".data "a".data = some "x".data ∧
    extract_xml_content "<a> x".data "a".data = none ∧
    extract_xml_content "no tags here".data "a".data = none := by
  refine ⟨fun xml tag => ?_, by decide, by decide, by decide⟩
  unfold extract_xml_content extractSpec
  simp only [firstOcc_eq_firstIdxSpec]

/-- C10: a line whose trimmed text is exactly `/model` (no argument) is not
a set-model command: it classifies as a chat message carrying the original
line, dispatch produces a chat envelope (never a `model_change` one), and
the line is recorded in the history as an ordinary user turn (followed by
the assistant turn only when the provider succeeds). -/
theorem model_without_argument_is_chat :
    ∀ (s : SessionState) (line : String) (p : ProviderOutcome),
      jsTrim line = "/model" →
      classify line = some (Command.Chat line) ∧
      handleMessage s line p =
        ((processMessage s line p).1,
          some (Envelope.chatResp (processMessage s line p).2.model
            (processMessage s line p).2.content)) ∧
      (processMessage s line p).1 =
        (match p with
          | Except.ok c =>
            updateConversationHistory (updateConversationHistory s "user" line)
              "assistant" (responseContentOf c)
          | Except.error _ => updateConversationHistory s "user" line) := by
  intro s line p h
  have hlow : jsToLower (jsTrim line) = "/model" := by rw [h]; decide
  have h1 : ¬ jsTrim line = "" := by rw [h]; decide
  have hA : ¬ jsToLower (jsTrim line) = "/clear" := by rw [hlow]; decide
  have hB : ¬ jsToLower (jsTrim line) = "/models" := by rw [hlow]; decide
  have hC : ¬ jsStartsWith (jsToLower (jsTrim line)) "/model " = true := by
    rw [hlow]; decide
  have hcl : classify line = some (Command.Chat line) := by
    simp only [classify, if_neg h1, if_neg hA, if_neg hB, if_neg hC]
  refine ⟨hcl, ?_, ?_⟩
  · simp only [handleMessage, hcl]
  · cases p with
    | ok c => rfl
    | error e => rfl

/-- Witness for C10 at the line `/model  ` (trailing whitespace only). -/
theorem model_without_argument_is_chat_witness :
    classify "/model  " = some (Command.Chat "/model  ") ∧
    handleMessage freshSession "/model  " (Except.ok (some "ok")) =
      ((processMessage freshSession "/model  " (Except.ok (some "ok"))).1,
        some (Envelope.chatResp
          (processMessage freshSession "/model  " (Except.ok (some "ok"))).2.model
          (processMessage freshSession "/model  " (Except.ok (some "ok"))).2.content)) ∧
    (processMessage freshSession "/model  " (Except.ok (some "ok"))).1 =
      updateConversationHistory
        (updateConversationHistory freshSession "user" "/model  ")
        "assistant" (responseContentOf (some "ok")) :=
  model_without_argument_is_chat freshSession "/model  " (Except.ok (some "ok"))
    (by decide)
